import Mathlib

/-!
Verification of the ARMv4 CPU interpreter of the pksx emulator
(`src/cpu/armv4_is.rs`) against its natural-language specification.

The instruction-set code is embedded shallowly: a 32-bit machine word is a
`Nat` known to be `< 2 ^ 32`, wrapping arithmetic is explicit `% 2 ^ 32`,
and a Rust `panic!` is an `Except.error`.  The `Cpu` register/flag state
lives in `src/cpu/mod.rs`, which is not part of the repository snapshot;
its accessors are modelled from the specification (section 6) and marked as
such in their doc comments.  Everything else is translated directly from
`armv4_is.rs`.
-/

set_option maxHeartbeats 1000000
set_option maxRecDepth 8192

namespace Pksx

/-! ## 32-bit helpers -/

/-- Wrapping 32-bit addition: `u32::wrapping_add`. -/
def wrappingAdd (a b : Nat) : Nat := (a + b) % 2 ^ 32

/-- Wrapping 32-bit subtraction: `u32::wrapping_sub`, for operands below `2 ^ 32`. -/
def wrappingSub (a b : Nat) : Nat := (a + 2 ^ 32 - b) % 2 ^ 32

/-- `u32::rotate_right`: the rotation amount is taken modulo 32. -/
def rotateRight32 (v r : Nat) : Nat :=
  (v >>> (r % 32)) ||| ((v <<< (32 - r % 32)) % 2 ^ 32)

/-- Reinterpret a `u32` bit pattern as an `i32` (the Rust `as i32` cast). -/
def toI32 (x : Nat) : Int := if x < 2 ^ 31 then (x : Int) else (x : Int) - 2 ^ 32

/-- The Rust expression `(x as i32) < 0`. -/
def i32lt0 (x : Nat) : Bool := decide (toI32 x < 0)

/-- Reinterpret an `Int` as a `u32` bit pattern. -/
def toU32 (x : Int) : Nat := (x % (2 ^ 32 : Int)).toNat

/-- Arithmetic (sign-propagating) right shift of a `u32` bit pattern, the
Rust `i32` `>>` operator. -/
def asr32 (v s : Nat) : Nat := toU32 (Int.fdiv (toI32 v) (2 ^ s))

/-- `u32::count_ones` restricted to the low 16 bits; the LDM/STM register
list is `instruction & 0xffff`, so it is faithful there. -/
def countOnes (n : Nat) : Nat := ((List.range 16).filter (fun i => n.testBit i)).length

/-! ## Errors

Each Rust `panic!` in the interpreter is modelled as an error value. -/

/-- The failure modes of the interpreter: each `panic!` site of
`armv4_is.rs` is mapped to one of these. -/
inductive ArmError where
  /-- `panic!("Unpredictable ...")` / `panic!("... pre-indexed")` /
  `panic!("Writeback indexing with Rd == Rn")` -/
  | unpredictable
  /-- `panic!("*S instruction with PC target")` -/
  | sPCTarget
  /-- `panic!("... instruction with non-0 Rd")` and similar
  should-be-zero violations -/
  | malformed
  /-- `panic!("Implementation-defined STM")` -/
  | implDefined
  /-- `unimplemented!()` -/
  | notImplemented
  /-- `panic!("Invalid ... instruction")` -/
  | invalidEncoding
  deriving Repr, DecidableEq

/-! ## CPU state -/

/-- Modelled from the spec: the CPU register/flag state of section 6.  The
file `src/cpu/mod.rs` holding the `Cpu` struct is not in the repository
snapshot, so the state is reconstructed from the specification: sixteen
32-bit registers (`regs i` for `i < 16`; index 15 aliases the program
counter and, per the pipeline contract, holds the current instruction
address plus 8 while an instruction executes), the four condition flags,
and raw CPSR/SPSR words. -/
structure Cpu where
  regs : Nat → Nat
  n : Bool
  z : Bool
  c : Bool
  v : Bool
  cpsr : Nat
  spsr : Nat

/-- Modelled from the spec: `Cpu::reg`, reading a register. -/
def Cpu.reg (cpu : Cpu) (i : Nat) : Nat := cpu.regs i

/-- Modelled from the spec: `Cpu::set_reg`, writing a register. -/
def Cpu.setReg (cpu : Cpu) (i : Nat) (val : Nat) : Cpu :=
  { cpu with regs := fun j => if j = i then val else cpu.regs j }

/-- Modelled from the spec: `Cpu::set_reg_pc_mask`, which clears the low
two bits of the value when the destination is the program counter. -/
def Cpu.setRegPcMask (cpu : Cpu) (i : Nat) (val : Nat) : Cpu :=
  if i = 15 then cpu.setReg 15 (val &&& 0xfffffffc) else cpu.setReg i val

/-- Modelled from the spec: `Cpu::set_pc_cpsr`, used by LDM(3) to set the
program counter and restore the CPSR atomically. -/
def Cpu.setPcCpsr (cpu : Cpu) (pc psr : Nat) : Cpu :=
  { cpu.setReg 15 pc with cpsr := psr }

/-- A concrete all-zero CPU state used by witnesses. -/
def cpu0 : Cpu := ⟨fun j => if j = 15 then 8 else 0, false, false, false, false, 0, 0⟩

/-! ## Instruction word field extractors (`impl Instruction`) -/

/-- `Instruction::rn`: bits [19:16]. -/
def instRn (inst : Nat) : Nat := (inst >>> 16) &&& 0xf

/-- `Instruction::rd`: bits [15:12]. -/
def instRd (inst : Nat) : Nat := (inst >>> 12) &&& 0xf

/-- `Instruction::rs`: bits [11:8]. -/
def instRs (inst : Nat) : Nat := (inst >>> 8) &&& 0xf

/-- `Instruction::rm`: bits [3:0]. -/
def instRm (inst : Nat) : Nat := inst &&& 0xf

/-- `Instruction::condition_code`: bits [31:28]. -/
def conditionCode (inst : Nat) : Nat := inst >>> 28

/-- `Instruction::register_list`: bits [15:0]. -/
def registerList (inst : Nat) : Nat := inst &&& 0xffff

/-! ## Condition evaluator (`Instruction::execute`, lines 70-121) -/

/-- The condition evaluator of `Instruction::execute`: given the
instruction word and the four CPSR flags, decide whether the instruction
executes.  Condition code `0b1111` panics (`Unexpected ARM condition`),
modelled as an `unpredictable` error. -/
def condPasses (inst : Nat) (n z c v : Bool) : Except ArmError Bool :=
  match conditionCode inst with
  | 0 => .ok z
  | 1 => .ok (!z)
  | 2 => .ok c
  | 3 => .ok (!c)
  | 4 => .ok n
  | 5 => .ok (!n)
  | 6 => .ok v
  | 7 => .ok (!v)
  | 8 => .ok (c && !z)
  | 9 => .ok (!c || z)
  | 10 => .ok (n == v)
  | 11 => .ok (n != v)
  | 12 => .ok (!z && (n == v))
  | 13 => .ok (z || (n != v))
  | 14 => .ok true
  | _ => .error .unpredictable

/-- C1: for every instruction word and flag state, the condition evaluator
realises exactly the table of spec section 4.1 — EQ iff Z, NE iff not Z,
CS iff C, CC iff not C, MI iff N, PL iff not N, VS iff V, VC iff not V,
HI iff C and not Z, LS iff not C or Z, GE iff N = V, LT iff N ≠ V, GT iff
not Z and N = V, LE iff Z or N ≠ V, AL always true — and condition code
`0b1111` fails with an `unpredictable` error instead of a boolean. -/
theorem condition_table (inst : Nat) (n z c v : Bool) (h : inst < 2 ^ 32) :
    (conditionCode inst = 0 → condPasses inst n z c v = .ok (decide (z = true))) ∧
    (conditionCode inst = 1 → condPasses inst n z c v = .ok (decide (z = false))) ∧
    (conditionCode inst = 2 → condPasses inst n z c v = .ok (decide (c = true))) ∧
    (conditionCode inst = 3 → condPasses inst n z c v = .ok (decide (c = false))) ∧
    (conditionCode inst = 4 → condPasses inst n z c v = .ok (decide (n = true))) ∧
    (conditionCode inst = 5 → condPasses inst n z c v = .ok (decide (n = false))) ∧
    (conditionCode inst = 6 → condPasses inst n z c v = .ok (decide (v = true))) ∧
    (conditionCode inst = 7 → condPasses inst n z c v = .ok (decide (v = false))) ∧
    (conditionCode inst = 8 →
      condPasses inst n z c v = .ok (decide (c = true ∧ z = false))) ∧
    (conditionCode inst = 9 →
      condPasses inst n z c v = .ok (decide (c = false ∨ z = true))) ∧
    (conditionCode inst = 10 → condPasses inst n z c v = .ok (decide (n = v))) ∧
    (conditionCode inst = 11 → condPasses inst n z c v = .ok (decide (n ≠ v))) ∧
    (conditionCode inst = 12 →
      condPasses inst n z c v = .ok (decide (z = false ∧ n = v))) ∧
    (conditionCode inst = 13 →
      condPasses inst n z c v = .ok (decide (z = true ∨ n ≠ v))) ∧
    (conditionCode inst = 14 → condPasses inst n z c v = .ok true) ∧
    (conditionCode inst = 15 → condPasses inst n z c v = .error .unpredictable) := by
  refine ⟨?_, ?_, ?_, ?_, ?_, ?_, ?_, ?_, ?_, ?_, ?_, ?_, ?_, ?_, ?_, ?_⟩ <;>
    intro hc <;> simp only [condPasses, hc] <;>
    cases n <;> cases z <;> cases c <;> cases v <;> rfl

/-- Witness for `condition_table` at the concrete word `0xE0000005`
(condition field `0b1110`, AL). -/
theorem condition_table_witness :
    condPasses 0xE0000005 true false true false = .ok true := by
  have h := condition_table 0xE0000005 true false true false (by norm_num)
  exact h.2.2.2.2.2.2.2.2.2.2.2.2.2.2.1 (by decide)

/-! ## Data-processing arithmetic kernels

The kernels below embed `adds` (lines 678-704), `subs` (lines 592-618),
`cmp` (lines 766-791) and `cmn` (lines 793-818) of `armv4_is.rs`.  The
first operand `a` is the value read from `Rn` and `b` is the value
produced by the addressing-mode evaluator `M::value`; both are passed
explicitly, exactly as the kernels receive them. -/

/-- `u32::overflowing_add`: the wrapped sum and the carry-out. -/
def overflowingAdd (a b : Nat) : Nat × Bool := ((a + b) % 2 ^ 32, decide (2 ^ 32 ≤ a + b))

/-- `adds` (ADD S), lines 678-704: rejects a PC destination, otherwise
writes the wrapped sum and updates N, Z, C (carry-out), V (signed
overflow of the addition). -/
def adds (rd a b : Nat) (cpu : Cpu) : Except ArmError Cpu :=
  if rd = 15 then .error .sPCTarget
  else
    let val := (overflowingAdd a b).1
    let c := (overflowingAdd a b).2
    let aNeg := i32lt0 a
    let bNeg := i32lt0 b
    let vNeg := i32lt0 val
    .ok { cpu.setReg rd val with
          n := vNeg, z := val == 0, c := c,
          v := (aNeg == bNeg) && Bool.xor aNeg vNeg }

/-- `subs` (SUB S), lines 592-618: rejects a PC destination, otherwise
writes the wrapped difference and updates N, Z, C (`a >= b`), V (signed
overflow of the subtraction). -/
def subs (rd a b : Nat) (cpu : Cpu) : Except ArmError Cpu :=
  if rd = 15 then .error .sPCTarget
  else
    let val := wrappingSub a b
    let aNeg := i32lt0 a
    let bNeg := i32lt0 b
    let vNeg := i32lt0 val
    .ok { cpu.setReg rd val with
          n := vNeg, z := val == 0, c := decide (b ≤ a),
          v := Bool.xor aNeg bNeg && Bool.xor aNeg vNeg }

/-- `cmp`, lines 766-791: requires the `Rd` encoding field to be zero,
updates the flags like `subs` and writes no register. -/
def cmp (rd a b : Nat) (cpu : Cpu) : Except ArmError Cpu :=
  if rd ≠ 0 then .error .malformed
  else
    let val := wrappingSub a b
    let aNeg := i32lt0 a
    let bNeg := i32lt0 b
    let vNeg := i32lt0 val
    .ok { cpu with
          n := vNeg, z := val == 0, c := decide (b ≤ a),
          v := Bool.xor aNeg bNeg && Bool.xor aNeg vNeg }

/-- `cmn`, lines 793-818: requires the `Rd` encoding field to be zero,
computes the wrapped sum for flags only.  Note that C is `a >= b` and V is
the same xor expression as in `cmp`. -/
def cmn (rd a b : Nat) (cpu : Cpu) : Except ArmError Cpu :=
  if rd ≠ 0 then .error .malformed
  else
    let val := wrappingAdd a b
    let aNeg := i32lt0 a
    let bNeg := i32lt0 b
    let vNeg := i32lt0 val
    .ok { cpu with
          n := vNeg, z := val == 0, c := decide (b ≤ a),
          v := Bool.xor aNeg bNeg && Bool.xor aNeg vNeg }

/-- The Rust sign test `(x as i32) < 0` is bit 31 of a 32-bit word. -/
theorem i32lt0_eq_testBit (x : Nat) (h : x < 2 ^ 32) : i32lt0 x = x.testBit 31 := by
  rw [show (2 : Nat) ^ 32 = 4294967296 from by norm_num] at h
  rw [Nat.testBit_to_div_mod]
  unfold i32lt0 toI32
  rw [show (2 : Nat) ^ 31 = 2147483648 from by norm_num,
      show ((2 : Int) ^ 32) = 4294967296 from by norm_num]
  simp only [decide_eq_decide]
  by_cases hx : x < 2147483648
  · rw [if_pos hx]; omega
  · rw [if_neg hx]; omega

/-- C2: for every executed ADDS, SUBS and CMP with first operand `a` (the
value of `Rn`) and addressing-mode operand `b`, the result is computed
modulo `2 ^ 32`; N equals bit 31 of the result and Z holds iff the result
is zero; for ADDS, C is the unsigned carry-out of `a + b` and V holds iff
the operands have equal sign bits and the result's sign bit differs; for
SUBS and CMP, C holds iff `a ≥ b` (unsigned) and V holds iff the operands
have different sign bits and the result's sign bit differs from `a`'s. -/
theorem arith_flags (rd a b : Nat) (cpu : Cpu)
    (ha : a < 2 ^ 32) (hb : b < 2 ^ 32) (hrd : rd ≠ 15) :
    (∃ cpu1, adds rd a b cpu = .ok cpu1 ∧
      cpu1.reg rd = (a + b) % 2 ^ 32 ∧
      cpu1.n = ((a + b) % 2 ^ 32).testBit 31 ∧
      (cpu1.z = true ↔ (a + b) % 2 ^ 32 = 0) ∧
      (cpu1.c = true ↔ 2 ^ 32 ≤ a + b) ∧
      (cpu1.v = true ↔
        a.testBit 31 = b.testBit 31 ∧ a.testBit 31 ≠ ((a + b) % 2 ^ 32).testBit 31)) ∧
    (∃ cpu1, subs rd a b cpu = .ok cpu1 ∧
      cpu1.reg rd = (a + 2 ^ 32 - b) % 2 ^ 32 ∧
      cpu1.n = ((a + 2 ^ 32 - b) % 2 ^ 32).testBit 31 ∧
      (cpu1.z = true ↔ (a + 2 ^ 32 - b) % 2 ^ 32 = 0) ∧
      (cpu1.c = true ↔ b ≤ a) ∧
      (cpu1.v = true ↔
        a.testBit 31 ≠ b.testBit 31 ∧
          a.testBit 31 ≠ ((a + 2 ^ 32 - b) % 2 ^ 32).testBit 31)) ∧
    (∃ cpu1, cmp 0 a b cpu = .ok cpu1 ∧
      (∀ i, cpu1.reg i = cpu.reg i) ∧
      cpu1.n = ((a + 2 ^ 32 - b) % 2 ^ 32).testBit 31 ∧
      (cpu1.z = true ↔ (a + 2 ^ 32 - b) % 2 ^ 32 = 0) ∧
      (cpu1.c = true ↔ b ≤ a) ∧
      (cpu1.v = true ↔
        a.testBit 31 ≠ b.testBit 31 ∧
          a.testBit 31 ≠ ((a + 2 ^ 32 - b) % 2 ^ 32).testBit 31)) := by
  have hadd : (a + b) % 2 ^ 32 < 2 ^ 32 := Nat.mod_lt _ (by norm_num)
  have hsub : (a + 2 ^ 32 - b) % 2 ^ 32 < 2 ^ 32 := Nat.mod_lt _ (by norm_num)
  have hA := i32lt0_eq_testBit a ha
  have hB := i32lt0_eq_testBit b hb
  have hVadd := i32lt0_eq_testBit _ hadd
  have hVsub := i32lt0_eq_testBit _ hsub
  refine ⟨?_, ?_, ?_⟩
  · unfold adds
    rw [if_neg hrd]
    refine ⟨_, rfl, ?_, ?_, ?_, ?_, ?_⟩
    · simp [Cpu.reg, Cpu.setReg, overflowingAdd]
    · simpa [overflowingAdd] using hVadd
    · simp [overflowingAdd]
    · simp [overflowingAdd]
    · simp only [overflowingAdd, hA, hB, hVadd]
      cases a.testBit 31 <;> cases b.testBit 31 <;>
        cases ((a + b) % 2 ^ 32).testBit 31 <;> simp
  · unfold subs
    rw [if_neg hrd]
    refine ⟨_, rfl, ?_, ?_, ?_, ?_, ?_⟩
    · simp [Cpu.reg, Cpu.setReg, wrappingSub]
    · simpa [wrappingSub] using hVsub
    · simp [wrappingSub]
    · simp
    · simp only [wrappingSub, hA, hB, hVsub]
      cases a.testBit 31 <;> cases b.testBit 31 <;>
        cases ((a + 2 ^ 32 - b) % 2 ^ 32).testBit 31 <;> simp
  · unfold cmp
    rw [if_neg (by norm_num : ¬ (0 : Nat) ≠ 0)]
    refine ⟨_, rfl, ?_, ?_, ?_, ?_, ?_⟩
    · intro i; rfl
    · simpa [wrappingSub] using hVsub
    · simp [wrappingSub]
    · simp
    · simp only [wrappingSub, hA, hB, hVsub]
      cases a.testBit 31 <;> cases b.testBit 31 <;>
        cases ((a + 2 ^ 32 - b) % 2 ^ 32).testBit 31 <;> simp

/-- Witness for `arith_flags`: `ADDS` of `0xFFFFFFFF` and `2` wraps to `1`
with carry set, matching the spec's end-to-end scenario 2. -/
theorem arith_flags_witness :
    ∃ cpu1, adds 0 0xffffffff 2 cpu0 = .ok cpu1 ∧
      cpu1.reg 0 = 1 ∧ cpu1.n = false ∧ cpu1.z = false ∧
      cpu1.c = true ∧ cpu1.v = false := by
  obtain ⟨⟨cpu1, hok, hr, hn, hz, hc, hv⟩, -, -⟩ :=
    arith_flags 0 0xffffffff 2 cpu0 (by norm_num) (by norm_num) (by norm_num)
  refine ⟨cpu1, hok, ?_, ?_, ?_, ?_, ?_⟩
  · rw [hr]; norm_num
  · rw [hn]; decide
  · rw [← Bool.not_eq_true, hz]; norm_num
  · rw [hc]; norm_num
  · rw [← Bool.not_eq_true, hv]; decide

/-- Extract the success value of an interpreter result, if any. -/
def okValue {α : Type} : Except ArmError α → Option α
  | .ok a => some a
  | .error _ => none

/-- C7 (failing input): `CMN` with `a = b = 0x40000000`.  The wrapped sum
is `0x80000000`, so the addition-overflow predicate of the claim —
`sign(a) = sign(b)` and `sign(a) ≠ sign(result)` — holds, yet the source
(which reuses the subtraction-overflow expression
`(a_neg ^ b_neg) & (a_neg ^ v_neg)` from `cmp`) leaves V clear. -/
theorem cmn_v_flag_divergence :
    (okValue (cmn 0 0x40000000 0x40000000 cpu0)).map Cpu.v = some false ∧
    Nat.testBit 0x40000000 31 = Nat.testBit 0x40000000 31 ∧
    Nat.testBit 0x40000000 31 ≠
      ((0x40000000 + 0x40000000) % 2 ^ 32).testBit 31 := by
  refine ⟨rfl, rfl, by decide⟩

/-! ## Status-register transfer (`mrs_cpsr`, lines 1738-1748, and
`mrs_spsr`, lines 1780-1790) -/

/-- `mrs_cpsr`: rejects any encoding where `instruction & 0xf0fff` is not
`0xf0000`, then copies the raw CPSR into `Rd` (no PC check). -/
def mrs_cpsr (inst : Nat) (cpu : Cpu) : Except ArmError Cpu :=
  if inst &&& 0xf0fff ≠ 0xf0000 then .error .invalidEncoding
  else .ok (cpu.setReg (instRd inst) cpu.cpsr)

/-- `mrs_spsr`: additionally rejects `Rd = PC`, then copies the SPSR into
`Rd`. -/
def mrs_spsr (inst : Nat) (cpu : Cpu) : Except ArmError Cpu :=
  if instRd inst = 15 ∨ inst &&& 0xf0fff ≠ 0xf0000 then .error .invalidEncoding
  else .ok (cpu.setReg (instRd inst) cpu.spsr)

/-- The combined `0xf0fff` mask test of the source splits into the two
field conditions of the claim: bits [19:16] all set and bits [11:0] all
clear. -/
theorem and_f0fff_split (x : Nat) :
    x &&& 0xf0fff = 0xf0000 ↔ ((x >>> 16) &&& 0xf = 0xf ∧ x &&& 0xfff = 0) := by
  have hbig : ∀ m i : Nat, m < 2 ^ 20 → 20 ≤ i → Nat.testBit m i = false := by
    intro m i hm hi
    exact Nat.testBit_lt_two_pow
      (lt_of_lt_of_le hm (Nat.pow_le_pow_right (by norm_num) hi))
  constructor
  · intro h
    constructor
    · apply Nat.eq_of_testBit_eq
      intro i
      rw [Nat.testBit_land, Nat.testBit_shiftRight]
      rcases Nat.lt_or_ge i 4 with hi | hi
      · have hx := congrArg (fun y => Nat.testBit y (16 + i)) h
        simp only [Nat.testBit_land] at hx
        have hm : Nat.testBit 0xf0fff (16 + i) = true := by
          interval_cases i <;> decide
        have hz : Nat.testBit 0xf0000 (16 + i) = true := by
          interval_cases i <;> decide
        rw [hm, hz, Bool.and_true] at hx
        have hf : Nat.testBit 0xf i = true := by
          interval_cases i <;> decide
        rw [hf, Bool.and_true, hx]
      · have h4 : Nat.testBit 0xf i = false :=
          Nat.testBit_lt_two_pow
            (lt_of_lt_of_le (by norm_num) (Nat.pow_le_pow_right (by norm_num) hi))
        rw [h4, Bool.and_false]
    · apply Nat.eq_of_testBit_eq
      intro i
      rw [Nat.testBit_land, Nat.zero_testBit]
      rcases Nat.lt_or_ge i 12 with hi | hi
      · have hx := congrArg (fun y => Nat.testBit y i) h
        simp only [Nat.testBit_land] at hx
        have hm : Nat.testBit 0xf0fff i = true := by
          interval_cases i <;> decide
        have hz : Nat.testBit 0xf0000 i = false := by
          interval_cases i <;> decide
        rw [hm, hz, Bool.and_true] at hx
        rw [hx, Bool.false_and]
      · have h4 : Nat.testBit 0xfff i = false :=
          Nat.testBit_lt_two_pow
            (lt_of_lt_of_le (by norm_num) (Nat.pow_le_pow_right (by norm_num) hi))
        rw [h4, Bool.and_false]
  · rintro ⟨hhi, hlo⟩
    apply Nat.eq_of_testBit_eq
    intro i
    rw [Nat.testBit_land]
    rcases Nat.lt_or_ge i 20 with hi | hi
    · rcases Nat.lt_or_ge i 12 with h12 | h12
      · have hx := congrArg (fun y => Nat.testBit y i) hlo
        simp only [Nat.testBit_land, Nat.zero_testBit] at hx
        have hm : Nat.testBit 0xfff i = true := by
          interval_cases i <;> decide
        rw [hm, Bool.and_true] at hx
        have h2 : Nat.testBit 0xf0000 i = false := by
          interval_cases i <;> decide
        rw [h2, hx, Bool.false_and]
      · rcases Nat.lt_or_ge i 16 with h16 | h16
        · have h1 : Nat.testBit 0xf0fff i = false := by
            interval_cases i <;> decide
          have h2 : Nat.testBit 0xf0000 i = false := by
            interval_cases i <;> decide
          rw [h1, h2, Bool.and_false]
        · obtain ⟨j, rfl⟩ : ∃ j, i = 16 + j := ⟨i - 16, by omega⟩
          have hj : j < 4 := by omega
          have hx := congrArg (fun y => Nat.testBit y j) hhi
          simp only [Nat.testBit_land, Nat.testBit_shiftRight] at hx
          have hf : Nat.testBit 0xf j = true := by
            interval_cases j <;> decide
          rw [hf, Bool.and_true] at hx
          have h1 : Nat.testBit 0xf0fff (16 + j) = true := by
            interval_cases j <;> decide
          have h2 : Nat.testBit 0xf0000 (16 + j) = true := by
            interval_cases j <;> decide
          rw [h1, h2, Bool.and_true, hx]
    · rw [hbig 0xf0fff i (by norm_num) hi, Bool.and_false,
          hbig 0xf0000 i (by norm_num) hi]

/-- C10: MRS from the CPSR errors exactly when instruction bits [19:16]
are not `0xF` or bits [11:0] are not zero; a PC destination (`Rd = 15`) is
accepted and receives the raw CPSR value; only the SPSR form additionally
rejects `Rd = 15`. -/
theorem mrs_encoding (inst : Nat) (cpu : Cpu) :
    ((∃ e, mrs_cpsr inst cpu = .error e) ↔
      ((inst >>> 16) &&& 0xf ≠ 0xf ∨ inst &&& 0xfff ≠ 0)) ∧
    (inst &&& 0xf0fff = 0xf0000 →
      mrs_cpsr inst cpu = .ok (cpu.setReg (instRd inst) cpu.cpsr)) ∧
    (instRd inst = 15 → mrs_spsr inst cpu = .error .invalidEncoding) ∧
    (mrs_cpsr 0xE10FF000 cpu = .ok (cpu.setReg 15 cpu.cpsr) ∧
      (cpu.setReg 15 cpu.cpsr).reg 15 = cpu.cpsr) := by
  have hpc : ∀ h15 : instRd inst = 15, mrs_spsr inst cpu = .error .invalidEncoding := by
    intro h15
    unfold mrs_spsr
    rw [if_pos (Or.inl h15)]
  have hconcrete : mrs_cpsr 0xE10FF000 cpu = .ok (cpu.setReg 15 cpu.cpsr) ∧
      (cpu.setReg 15 cpu.cpsr).reg 15 = cpu.cpsr := by
    constructor
    · rfl
    · simp [Cpu.reg, Cpu.setReg]
  by_cases hmask : inst &&& 0xf0fff = 0xf0000
  · obtain ⟨hA, hB⟩ := (and_f0fff_split inst).mp hmask
    have hok : mrs_cpsr inst cpu = .ok (cpu.setReg (instRd inst) cpu.cpsr) := by
      unfold mrs_cpsr
      rw [if_neg (by simp [hmask])]
    refine ⟨?_, fun _ => hok, hpc, hconcrete⟩
    constructor
    · rintro ⟨e, he⟩
      rw [hok] at he
      exact absurd he (by simp)
    · rintro (hbad | hbad)
      · exact absurd hA hbad
      · exact absurd hB hbad
  · have herr : mrs_cpsr inst cpu = .error .invalidEncoding := by
      unfold mrs_cpsr
      rw [if_pos hmask]
    refine ⟨?_, fun hc => absurd hc hmask, hpc, hconcrete⟩
    constructor
    · intro _
      exact not_and_or.mp (fun hab => hmask ((and_f0fff_split inst).mpr hab))
    · intro _
      exact ⟨.invalidEncoding, herr⟩

/-- Witness for `mrs_encoding`: the encoding `0xE10F0001` (non-zero low
bits) is rejected, and the valid `Rd = PC` form is accepted. -/
theorem mrs_encoding_witness :
    (∃ e, mrs_cpsr 0xE10F0001 cpu0 = .error e) ∧
    mrs_cpsr 0xE10FF000 cpu0 = .ok (cpu0.setReg 15 cpu0.cpsr) := by
  have h := mrs_encoding 0xE10F0001 cpu0
  have h2 := mrs_encoding 0xE10FF000 cpu0
  exact ⟨h.1.mpr (Or.inr (by decide)), h2.2.2.2.1⟩

/-! ## Addressing mode 1, register-shifted forms (lines 263-492)

`Mode1LslReg`, `Mode1LsrReg`, `Mode1AsrReg` implement `value` only; their
`value_carry` bodies are `unimplemented!()`, modelled as a
`notImplemented` error.  `Mode1RorReg` implements both. -/

/-- `Mode1LslReg::value`: logical shift left by the low byte of `Rs`,
zero for shifts of 32 or more. -/
def mode1LslRegValue (inst : Nat) (cpu : Cpu) : Nat :=
  let val := cpu.reg (instRm inst)
  let shift := cpu.reg (instRs inst) &&& 0xff
  if shift ≤ 31 then (val <<< shift) % 2 ^ 32 else 0

/-- `Mode1LslReg::value_carry`: `unimplemented!()`. -/
def mode1LslRegValueCarry (_inst : Nat) (_cpu : Cpu) : Except ArmError (Nat × Bool) :=
  .error .notImplemented

/-- `Mode1LsrReg::value`: logical shift right by the low byte of `Rs`,
zero for shifts of 32 or more. -/
def mode1LsrRegValue (inst : Nat) (cpu : Cpu) : Nat :=
  let val := cpu.reg (instRm inst)
  let shift := cpu.reg (instRs inst) &&& 0xff
  if shift ≤ 31 then val >>> shift else 0

/-- `Mode1LsrReg::value_carry`: `unimplemented!()`. -/
def mode1LsrRegValueCarry (_inst : Nat) (_cpu : Cpu) : Except ArmError (Nat × Bool) :=
  .error .notImplemented

/-- `Mode1AsrReg::value`: arithmetic shift right by the low byte of `Rs`,
degenerating to a shift by 31 for 32 or more. -/
def mode1AsrRegValue (inst : Nat) (cpu : Cpu) : Nat :=
  let val := cpu.reg (instRm inst)
  let shift := cpu.reg (instRs inst) &&& 0xff
  if shift ≤ 31 then asr32 val shift else asr32 val 31

/-- `Mode1AsrReg::value_carry`: `unimplemented!()`. -/
def mode1AsrRegValueCarry (_inst : Nat) (_cpu : Cpu) : Except ArmError (Nat × Bool) :=
  .error .notImplemented

/-- `Mode1RorReg::value`: rotate right by `Rs & 0x1f`. -/
def mode1RorRegValue (inst : Nat) (cpu : Cpu) : Nat :=
  let val := cpu.reg (instRm inst)
  let shift := cpu.reg (instRs inst) &&& 0x1f
  rotateRight32 val shift

/-- `Mode1RorReg::value_carry` (lines 465-482): `Rs & 0xff = 0` keeps the
value and the current C; `Rs & 0x1f = 0` with `Rs & 0xff ≠ 0` keeps the
value with carry from bit 31; otherwise rotate with carry from the last
bit rotated out. -/
def mode1RorRegValueCarry (inst : Nat) (cpu : Cpu) : Except ArmError (Nat × Bool) :=
  let val := cpu.reg (instRm inst)
  let shift := cpu.reg (instRs inst) &&& 0xff
  if shift = 0 then .ok (val, cpu.c)
  else if shift &&& 0x1f = 0 then .ok (val, i32lt0 val)
  else
    let s := shift &&& 0x1f
    .ok (rotateRight32 val s, decide ((val >>> (s - 1)) &&& 1 ≠ 0))

/-- `tst` (lines 722-742), parameterised by the result of
`M::value_carry` (evaluated first, as in the source) and the value of
`Rn`: requires `Rd = 0` and updates N, Z and C without writing a
register. -/
def tst (rd : Nat) (vc : Except ArmError (Nat × Bool)) (a : Nat) (cpu : Cpu) :
    Except ArmError Cpu :=
  match vc with
  | .error e => .error e
  | .ok (b, c) =>
    if rd ≠ 0 then .error .malformed
    else
      let val := a &&& b
      .ok { cpu with n := i32lt0 val, z := val == 0, c := c }

/-- C9 (counterexample): a test operation that requests the carry-out of
an LSL-by-register operand does not follow the carry laws — the source's
`Mode1LslReg::value_carry` is `unimplemented!()` and the interpreter
panics.  Here `TST R0, R0, LSL R0` on the all-zero CPU (shift amount 0,
where the claim promises carry = current C) fails instead. -/
theorem mode1_lsl_reg_carry_unimplemented :
    tst 0 (mode1LslRegValueCarry 0x00000010 cpu0) (cpu0.reg 0) cpu0 =
      .error .notImplemented ∧
    okValue (mode1LslRegValueCarry 0x00000010 cpu0) = none := by
  exact ⟨rfl, rfl⟩

/-- Shifting a 32-bit word arithmetically by 31 replicates the sign bit
over the whole word. -/
theorem asr32_sign_replicate (val : Nat) (h : val < 2 ^ 32) :
    asr32 val 31 = if val.testBit 31 then 0xffffffff else 0 := by
  have h32 : (2 : Nat) ^ 32 = 4294967296 := by norm_num
  have h31 : (2 : Nat) ^ 31 = 2147483648 := by norm_num
  rw [h32] at h
  have hb : val.testBit 31 = decide (2147483648 ≤ val) := by
    rw [Nat.testBit_to_div_mod, decide_eq_decide, h31]
    omega
  rw [hb]
  unfold asr32 toU32 toI32
  rw [Int.fdiv_eq_ediv _ (by positivity), h31,
      show ((2 : Int) ^ 32) = 4294967296 from by norm_num,
      show ((2 : Int) ^ 31) = 2147483648 from by norm_num]
  by_cases hv : val < 2147483648
  · rw [if_pos hv, decide_eq_false (by omega)]
    simp only [Bool.false_eq_true, if_false]
    omega
  · rw [if_neg hv, decide_eq_true (by omega)]
    simp only [if_true]
    omega

/-- C9 (amended): the register-shifted operand values follow the claimed
laws — LSL/LSR give the shift for `s ≤ 31` and 0 for `s ≥ 32`, ASR gives
the arithmetic shift for `s ≤ 31` and full sign-replication for `s ≥ 32`,
ROR rotates by `Rs & 0x1F` — and the carry laws hold for the ROR
register-shifted form (`s = 0` keeps the current C; `Rs & 0x1F = 0` with
`Rs & 0xFF ≠ 0` keeps the value with carry = bit 31; otherwise carry is
the last bit rotated out); but for the LSL/LSR/ASR register-shifted forms
a carry request does not follow the laws: it is unimplemented and
fails. -/
theorem mode1_reg_shift_laws (inst : Nat) (cpu : Cpu)
    (hval : cpu.reg (instRm inst) < 2 ^ 32) :
    (31 < cpu.reg (instRs inst) &&& 0xff →
      mode1LslRegValue inst cpu = 0 ∧
      mode1LsrRegValue inst cpu = 0 ∧
      mode1AsrRegValue inst cpu =
        (if (cpu.reg (instRm inst)).testBit 31 then 0xffffffff else 0)) ∧
    (cpu.reg (instRs inst) &&& 0xff ≤ 31 →
      mode1LslRegValue inst cpu =
        cpu.reg (instRm inst) * 2 ^ (cpu.reg (instRs inst) &&& 0xff) % 2 ^ 32 ∧
      mode1LsrRegValue inst cpu =
        cpu.reg (instRm inst) / 2 ^ (cpu.reg (instRs inst) &&& 0xff) ∧
      mode1AsrRegValue inst cpu =
        asr32 (cpu.reg (instRm inst)) (cpu.reg (instRs inst) &&& 0xff)) ∧
    (mode1RorRegValue inst cpu =
      rotateRight32 (cpu.reg (instRm inst)) (cpu.reg (instRs inst) &&& 0x1f)) ∧
    (cpu.reg (instRs inst) &&& 0xff = 0 →
      mode1RorRegValueCarry inst cpu = .ok (cpu.reg (instRm inst), cpu.c)) ∧
    (cpu.reg (instRs inst) &&& 0xff ≠ 0 → cpu.reg (instRs inst) &&& 0x1f = 0 →
      mode1RorRegValueCarry inst cpu =
        .ok (cpu.reg (instRm inst), (cpu.reg (instRm inst)).testBit 31)) ∧
    (cpu.reg (instRs inst) &&& 0x1f ≠ 0 →
      mode1RorRegValueCarry inst cpu =
        .ok (rotateRight32 (cpu.reg (instRm inst)) (cpu.reg (instRs inst) &&& 0x1f),
             (cpu.reg (instRm inst)).testBit ((cpu.reg (instRs inst) &&& 0x1f) - 1))) ∧
    (mode1LslRegValueCarry inst cpu = .error .notImplemented ∧
     mode1LsrRegValueCarry inst cpu = .error .notImplemented ∧
     mode1AsrRegValueCarry inst cpu = .error .notImplemented) := by
  have hmask : cpu.reg (instRs inst) &&& 0xff &&& 0x1f =
      cpu.reg (instRs inst) &&& 0x1f := by
    rw [Nat.and_assoc, show (0xff : Nat) &&& 0x1f = 0x1f from by decide]
  have hbit : ∀ k, decide ((cpu.reg (instRm inst) >>> k) &&& 1 ≠ 0) =
      (cpu.reg (instRm inst)).testBit k := by
    intro k
    rw [Nat.testBit_to_div_mod, decide_eq_decide, Nat.and_one_is_mod,
        Nat.shiftRight_eq_div_pow]
    omega
  refine ⟨?_, ?_, rfl, ?_, ?_, ?_, rfl, rfl, rfl⟩
  · intro hs
    refine ⟨?_, ?_, ?_⟩
    · unfold mode1LslRegValue
      rw [if_neg (by omega)]
    · unfold mode1LsrRegValue
      rw [if_neg (by omega)]
    · unfold mode1AsrRegValue
      rw [if_neg (by omega)]
      exact asr32_sign_replicate _ hval
  · intro hs
    refine ⟨?_, ?_, ?_⟩
    · unfold mode1LslRegValue
      rw [if_pos hs, Nat.shiftLeft_eq]
    · unfold mode1LsrRegValue
      rw [if_pos hs, Nat.shiftRight_eq_div_pow]
    · unfold mode1AsrRegValue
      rw [if_pos hs]
  · intro hz
    unfold mode1RorRegValueCarry
    rw [if_pos hz]
  · intro hnz hz31
    unfold mode1RorRegValueCarry
    rw [if_neg hnz, if_pos (by rw [hmask]; exact hz31),
        i32lt0_eq_testBit _ hval]
  · intro hnz
    have hff : cpu.reg (instRs inst) &&& 0xff ≠ 0 := by
      intro h0
      apply hnz
      rw [← hmask, h0]
      rfl
    unfold mode1RorRegValueCarry
    rw [if_neg hff, if_neg (by rw [hmask]; exact hnz)]
    simp only [hmask, hbit]

/-- Witness for `mode1_reg_shift_laws` at the word `0x00000010`
(`Rm = Rs = R0`) with `R0 = 0`: the shift amount is zero, so the LSL
value is `R0` itself and the ROR carry path returns the current C. -/
theorem mode1_reg_shift_laws_witness :
    mode1LslRegValue 0x00000010 cpu0 = 0 ∧
    mode1RorRegValueCarry 0x00000010 cpu0 = .ok (0, false) := by
  have h := mode1_reg_shift_laws 0x00000010 cpu0 (by decide)
  exact ⟨((h.2.1 (by decide)).1).trans (by decide),
         (h.2.2.2.1 (by decide)).trans (by rfl)⟩

/-! ## Addressing modes 2 and 3, writeback forms (lines 1060-1148 and
1338-1434)

Each evaluator returns the updated CPU together with the effective
address.  `Mode2ImmPre`/`Mode2ImmPost` reject a PC base and `Rd = Rn`;
`Mode3ImmPre`/`Mode3ImmPost` only check `Rd = Rn` — there is no
`rn.is_pc()` test in their source. -/

/-- `Mode2ImmPre::address` (lines 1063-1092). -/
def mode2ImmPreAddress (u : Bool) (inst : Nat) (cpu : Cpu) : Except ArmError (Cpu × Nat) :=
  let rd := instRd inst
  let rn := instRn inst
  let offset := inst &&& 0xfff
  if rn = 15 then .error .unpredictable
  else if rd = rn then .error .unpredictable
  else
    let base := cpu.reg rn
    let addr := if u then wrappingAdd base offset else wrappingSub base offset
    .ok (cpu.setReg rn addr, addr)

/-- `Mode2ImmPost::address` (lines 1107-1137): same checks, writes the
indexed address back but returns the original base. -/
def mode2ImmPostAddress (u : Bool) (inst : Nat) (cpu : Cpu) : Except ArmError (Cpu × Nat) :=
  let rd := instRd inst
  let rn := instRn inst
  let offset := inst &&& 0xfff
  if rn = 15 then .error .unpredictable
  else if rd = rn then .error .unpredictable
  else
    let base := cpu.reg rn
    let addr := if u then wrappingAdd base offset else wrappingSub base offset
    .ok (cpu.setReg rn addr, base)

/-- The split 8-bit immediate of addressing mode 3. -/
def mode3Offset (inst : Nat) : Nat :=
  (((inst >>> 8) &&& 0xf) <<< 4) ||| (inst &&& 0xf)

/-- `Mode3ImmPre::address` (lines 1341-1367): only checks `Rd = Rn`; a PC
base is not rejected. -/
def mode3ImmPreAddress (u : Bool) (inst : Nat) (cpu : Cpu) : Except ArmError (Cpu × Nat) :=
  let rn := instRn inst
  let rd := instRd inst
  if rd = rn then .error .unpredictable
  else
    let offset := mode3Offset inst
    let base := cpu.reg rn
    let addr := if u then wrappingAdd base offset else wrappingSub base offset
    .ok (cpu.setReg rn addr, addr)

/-- `Mode3ImmPost::address` (lines 1390-1416): only checks `Rd = Rn`;
writes back the indexed address and returns the original base. -/
def mode3ImmPostAddress (u : Bool) (inst : Nat) (cpu : Cpu) : Except ArmError (Cpu × Nat) :=
  let rn := instRn inst
  let rd := instRd inst
  if rd = rn then .error .unpredictable
  else
    let offset := mode3Offset inst
    let base := cpu.reg rn
    let wb := if u then wrappingAdd base offset else wrappingSub base offset
    .ok (cpu.setReg rn wb, base)

/-- `Mode2LslRegPre::address` (lines 1185-1206): LSL-scaled register
offset with pre-indexed writeback.  The source body performs no check at
all — neither `rn.is_pc()` nor `rd == rn`. -/
def mode2LslRegPreAddress (u : Bool) (inst : Nat) (cpu : Cpu) : Except ArmError (Cpu × Nat) :=
  let rn := instRn inst
  let rm := instRm inst
  let shift := (inst >>> 7) &&& 0x1f
  let offset := (cpu.reg rm <<< shift) % 2 ^ 32
  let base := cpu.reg rn
  let addr := if u then wrappingAdd base offset else wrappingSub base offset
  .ok (cpu.setReg rn addr, addr)

/-- C6 (counterexample): two reachable writeback address computations do
not perform the claimed checks.  `Mode3ImmPre` with base register PC
(word `0x000F0000`: `Rn = 15`, `Rd = 0`, offset 0) succeeds instead of
failing, returning the PC value (8 on `cpu0`) as the effective address
and writing it back to the PC.  The mode-2 LSL-scaled register
pre-indexed form `Mode2LslRegPre` (dispatched from the `ldr`/`ldrb`/
`strb` slots of the opcode table) checks nothing at all: with the same
PC base it also succeeds, and it succeeds as well with `Rd = Rn`
(word `0x00011000`: `Rn = Rd = 1`). -/
theorem writeback_pc_checks_missing :
    mode3ImmPreAddress true 0x000F0000 cpu0 ≠ Except.error ArmError.unpredictable ∧
    (okValue (mode3ImmPreAddress true 0x000F0000 cpu0)).map Prod.snd = some 8 ∧
    (okValue (mode3ImmPreAddress true 0x000F0000 cpu0)).map
      (fun r => r.1.reg 15) = some 8 ∧
    mode2LslRegPreAddress true 0x000F0000 cpu0 ≠ Except.error ArmError.unpredictable ∧
    (okValue (mode2LslRegPreAddress true 0x000F0000 cpu0)).map Prod.snd = some 8 ∧
    (okValue (mode2LslRegPreAddress true 0x000F0000 cpu0)).map
      (fun r => r.1.reg 15) = some 8 ∧
    mode2LslRegPreAddress true 0x00011000 cpu0 ≠ Except.error ArmError.unpredictable := by
  refine ⟨?_, rfl, rfl, ?_, rfl, rfl, ?_⟩
  · intro h
    have h2 := congrArg (fun x => (okValue x).map Prod.snd) h
    simp only [okValue] at h2
    exact Option.noConfusion h2
  · intro h
    have h2 := congrArg (fun x => (okValue x).map Prod.snd) h
    simp only [okValue] at h2
    exact Option.noConfusion h2
  · intro h
    have h2 := congrArg (fun x => (okValue x).map Prod.snd) h
    simp only [okValue] at h2
    exact Option.noConfusion h2

/-- C6 (amended): among the pre/post-indexed writeback address
computations — the mode-2 immediate forms fail with `Unpredictable` when
the base is the PC or `Rd = Rn`; the mode-3 immediate forms fail only
when `Rd = Rn` and do not check for a PC base; and the mode-2 LSL-scaled
register pre-indexed form performs no check at all, succeeding even with
a PC base or `Rd = Rn`.  In every successful case the base register is
updated to `base ± offset` and the returned effective address is
`base ± offset` (pre-indexed) or the original base (post-indexed). -/
theorem mode23_writeback_address (u : Bool) (inst : Nat) (cpu : Cpu) :
    (instRn inst = 15 →
      mode2ImmPreAddress u inst cpu = .error .unpredictable ∧
      mode2ImmPostAddress u inst cpu = .error .unpredictable) ∧
    (instRd inst = instRn inst →
      mode2ImmPreAddress u inst cpu = .error .unpredictable ∧
      mode2ImmPostAddress u inst cpu = .error .unpredictable ∧
      mode3ImmPreAddress u inst cpu = .error .unpredictable ∧
      mode3ImmPostAddress u inst cpu = .error .unpredictable) ∧
    (instRn inst ≠ 15 → instRd inst ≠ instRn inst →
      mode2ImmPreAddress u inst cpu =
        .ok (cpu.setReg (instRn inst)
              (if u then wrappingAdd (cpu.reg (instRn inst)) (inst &&& 0xfff)
               else wrappingSub (cpu.reg (instRn inst)) (inst &&& 0xfff)),
             if u then wrappingAdd (cpu.reg (instRn inst)) (inst &&& 0xfff)
             else wrappingSub (cpu.reg (instRn inst)) (inst &&& 0xfff)) ∧
      mode2ImmPostAddress u inst cpu =
        .ok (cpu.setReg (instRn inst)
              (if u then wrappingAdd (cpu.reg (instRn inst)) (inst &&& 0xfff)
               else wrappingSub (cpu.reg (instRn inst)) (inst &&& 0xfff)),
             cpu.reg (instRn inst))) ∧
    (instRd inst ≠ instRn inst →
      mode3ImmPreAddress u inst cpu =
        .ok (cpu.setReg (instRn inst)
              (if u then wrappingAdd (cpu.reg (instRn inst)) (mode3Offset inst)
               else wrappingSub (cpu.reg (instRn inst)) (mode3Offset inst)),
             if u then wrappingAdd (cpu.reg (instRn inst)) (mode3Offset inst)
             else wrappingSub (cpu.reg (instRn inst)) (mode3Offset inst)) ∧
      mode3ImmPostAddress u inst cpu =
        .ok (cpu.setReg (instRn inst)
              (if u then wrappingAdd (cpu.reg (instRn inst)) (mode3Offset inst)
               else wrappingSub (cpu.reg (instRn inst)) (mode3Offset inst)),
             cpu.reg (instRn inst))) ∧
    (mode2LslRegPreAddress u inst cpu =
      .ok (cpu.setReg (instRn inst)
            (if u then
              wrappingAdd (cpu.reg (instRn inst))
                ((cpu.reg (instRm inst) <<< ((inst >>> 7) &&& 0x1f)) % 2 ^ 32)
             else
              wrappingSub (cpu.reg (instRn inst))
                ((cpu.reg (instRm inst) <<< ((inst >>> 7) &&& 0x1f)) % 2 ^ 32)),
           if u then
             wrappingAdd (cpu.reg (instRn inst))
               ((cpu.reg (instRm inst) <<< ((inst >>> 7) &&& 0x1f)) % 2 ^ 32)
           else
             wrappingSub (cpu.reg (instRn inst))
               ((cpu.reg (instRm inst) <<< ((inst >>> 7) &&& 0x1f)) % 2 ^ 32))) := by
  refine ⟨?_, ?_, ?_, ?_, rfl⟩
  · intro hpc
    constructor
    · unfold mode2ImmPreAddress
      rw [if_pos hpc]
    · unfold mode2ImmPostAddress
      rw [if_pos hpc]
  · intro heq
    refine ⟨?_, ?_, ?_, ?_⟩
    · unfold mode2ImmPreAddress
      by_cases hpc : instRn inst = 15
      · rw [if_pos hpc]
      · rw [if_neg hpc, if_pos heq]
    · unfold mode2ImmPostAddress
      by_cases hpc : instRn inst = 15
      · rw [if_pos hpc]
      · rw [if_neg hpc, if_pos heq]
    · unfold mode3ImmPreAddress
      rw [if_pos heq]
    · unfold mode3ImmPostAddress
      rw [if_pos heq]
  · intro hpc hne
    constructor
    · unfold mode2ImmPreAddress
      rw [if_neg hpc, if_neg hne]
    · unfold mode2ImmPostAddress
      rw [if_neg hpc, if_neg hne]
  · intro hne
    constructor
    · unfold mode3ImmPreAddress
      rw [if_neg hne]
    · unfold mode3ImmPostAddress
      rw [if_neg hne]

/-- Witness for `mode23_writeback_address`: mode 2 pre rejects a PC base
(`0x000F0000`), and mode 3 post at `0x00010004` (`Rn = 1`, offset 4) on
the zero CPU writes 4 back to `R1` and returns the original base 0. -/
theorem mode23_writeback_address_witness :
    mode2ImmPreAddress true 0x000F0000 cpu0 = .error .unpredictable ∧
    mode3ImmPostAddress true 0x00010004 cpu0 = .ok (cpu0.setReg 1 4, 0) := by
  have h1 := (mode23_writeback_address true 0x000F0000 cpu0).1 (by decide)
  have h2 := ((mode23_writeback_address true 0x00010004 cpu0).2.2.2.1 (by decide)).2
  exact ⟨h1.1, h2.trans (by rfl)⟩

/-! ## LDR (lines 1221-1236) -/

/-- A bus holding the word `0xAABBCCDD` at address `0x1000`, matching the
spec's end-to-end scenario 4. -/
def bus1000 : Nat → Nat := fun a => if a = 0x1000 then 0xAABBCCDD else 0

/-- `ldr`, with the addressing-mode evaluator's result passed as `addr`
and the bus read abstracted as `load32`: aligns the address, rotates the
loaded word right by `8 * (addr & 3)` bits and writes it to `Rd` with the
PC mask.  Returns the updated CPU and the bus address accessed. -/
def ldr (load32 : Nat → Nat) (rd addr : Nat) (cpu : Cpu) : Cpu × Nat :=
  let rot := (addr &&& 3) * 8
  let addr2 := addr &&& 0xfffffffc
  let val := rotateRight32 (load32 addr2) rot
  (cpu.setRegPcMask rd val, addr2)

/-- Reducing modulo 4 is masking with 3. -/
theorem mod4_eq_and3 (x : Nat) : x % 4 = x &&& 3 := by
  have h := Nat.and_pow_two_sub_one_eq_mod x 2
  norm_num at h
  omega

/-- C4: `ldr` reads the bus at `addr & !3`, rotates the loaded word right
by `8 * (addr & 3)` bit positions and writes it to `Rd` with PC-masking
(the PC receives the value with its low two bits cleared); concretely,
with `0xAABBCCDD` stored at `0x1000` and address `0x1003` the destination
receives `0xBBCCDDAA`. -/
theorem ldr_rotate (load32 : Nat → Nat) (rd addr : Nat) (cpu : Cpu) :
    (ldr load32 rd addr cpu).2 = addr &&& 0xfffffffc ∧
    (rd ≠ 15 → (ldr load32 rd addr cpu).1.reg rd =
      rotateRight32 (load32 (addr &&& 0xfffffffc)) (8 * (addr % 4))) ∧
    (rd = 15 →
      (ldr load32 rd addr cpu).1.reg 15 =
        rotateRight32 (load32 (addr &&& 0xfffffffc)) (8 * (addr % 4)) &&& 0xfffffffc ∧
      (ldr load32 rd addr cpu).1.reg 15 % 4 = 0) ∧
    (ldr bus1000 0 0x1003 cpu0).1.reg 0 = 0xBBCCDDAA := by
  have hrot : (addr &&& 3) * 8 = 8 * (addr % 4) := by
    rw [mod4_eq_and3, Nat.mul_comm]
  refine ⟨rfl, ?_, ?_, by decide⟩
  · intro hne
    simp only [ldr, Cpu.setRegPcMask]
    rw [if_neg hne]
    simp [Cpu.reg, Cpu.setReg, hrot]
  · intro hpc
    subst hpc
    constructor
    · simp [ldr, Cpu.setRegPcMask, Cpu.reg, Cpu.setReg, hrot]
    · simp [ldr, Cpu.setRegPcMask, Cpu.reg, Cpu.setReg]
      rw [mod4_eq_and3, Nat.and_assoc,
          show (0xfffffffc : Nat) &&& 3 = 0 from by decide, Nat.and_zero]

/-- Witness for `ldr_rotate`, reproducing the spec's scenario 4 through
the theorem. -/
theorem ldr_rotate_witness :
    (ldr bus1000 0 0x1003 cpu0).2 = 0x1000 ∧
    (ldr bus1000 0 0x1003 cpu0).1.reg 0 =
      rotateRight32 (bus1000 0x1000) 24 := by
  have h := ldr_rotate bus1000 0 0x1003 cpu0
  exact ⟨h.1.trans (by decide), (h.2.1 (by decide)).trans (by decide)⟩

/-! ## Block data transfer (lines 1520-1736)

`ldm`, `ldms` and `stm` are embedded together with a trace of the word
accesses they issue to the bus, in program order.  An error is returned
where the source panics; the guard panics fire before the transfer loop,
so an error result carries no trace. -/

/-- `mode4_start_wb` (lines 1521-1546): start address and writeback value
for LDM/STM.  The source's unchecked `+ 4` additions are release-mode
`u32` additions and therefore wrap. -/
def mode4_start_wb (u p : Bool) (base list : Nat) : Nat × Nat :=
  let lenBytes := countOnes list * 4
  if u then
    (if p then wrappingAdd base 4 else base, wrappingAdd base lenBytes)
  else
    (if p then wrappingSub base lenBytes
     else wrappingAdd (wrappingSub base lenBytes) 4,
     wrappingSub base lenBytes)

/-- The transfer loop of `ldm` (lines 1578-1588) over a list of register
indices: each set bit loads a word and writes it with the PC mask,
advancing the address by 4.  Returns the updated CPU and the list of
addresses read. -/
def ldmGo (load32 : Nat → Nat) (list : Nat) :
    Cpu → List Nat → Nat → Cpu × List Nat
  | cpu, [], _ => (cpu, [])
  | cpu, i :: rest, addr =>
    if (list >>> i) &&& 1 ≠ 0 then
      let val := load32 addr
      let r := ldmGo load32 list (cpu.setRegPcMask i val) rest (wrappingAdd addr 4)
      (r.1, addr :: r.2)
    else ldmGo load32 list cpu rest addr

/-- `ldm` (lines 1548-1593): rejects an empty list, a PC base, and
writeback with the base in the list; then loads ascending from the mode-4
start address and finally applies writeback. -/
def ldm (u p w : Bool) (load32 : Nat → Nat) (rn list : Nat) (cpu : Cpu) :
    Except ArmError (Cpu × List Nat) :=
  if list = 0 ∨ rn = 15 ∨ (w = true ∧ list &&& (1 <<< rn) ≠ 0) then
    .error .unpredictable
  else
    let base := cpu.reg rn
    let sw := mode4_start_wb u p base list
    let r := ldmGo load32 list cpu (List.range 16) sw.1
    .ok (if w then r.1.setReg rn sw.2 else r.1, r.2)

/-- The transfer loop of `stm` (lines 1714-1731): each set bit first runs
the in-loop unpredictable check (`W` set, register equals base, not the
first transfer), then stores the register at the current address.  The
trace pairs each address with the stored value. -/
def stmGo (cpu : Cpu) (list rn : Nat) (w : Bool) :
    List Nat → Nat → Bool → Except ArmError (List (Nat × Nat))
  | [], _, _ => .ok []
  | i :: rest, addr, first =>
    if (list >>> i) &&& 1 ≠ 0 then
      if w = true ∧ i = rn ∧ first = false then .error .unpredictable
      else
        match stmGo cpu list rn w rest (wrappingAdd addr 4) false with
        | .error e => .error e
        | .ok tl => .ok ((addr, cpu.reg i) :: tl)
    else stmGo cpu list rn w rest addr first

/-- `stm` (lines 1679-1736): the same guard as `ldm`, an additional
rejection of PC in the register list (`Implementation-defined STM`), the
ascending store loop, then writeback. -/
def stm (u p w : Bool) (rn list : Nat) (cpu : Cpu) :
    Except ArmError (Cpu × List (Nat × Nat)) :=
  if list = 0 ∨ rn = 15 ∨ (w = true ∧ list &&& (1 <<< rn) ≠ 0) then
    .error .unpredictable
  else if list &&& (1 <<< 15) ≠ 0 then .error .implDefined
  else
    let base := cpu.reg rn
    let sw := mode4_start_wb u p base list
    match stmGo cpu list rn w (List.range 16) sw.1 true with
    | .error e => .error e
    | .ok tr => .ok (if w then cpu.setReg rn sw.2 else cpu, tr)

/-- The transfer loop of `ldms` (lines 1643-1666): with `load_spsr` set
(PC in the list), the slot for register 15 loads the word, then loads the
same address again into the deferred `pc` variable — two bus accesses;
other registers are written directly.  Without `load_spsr` the loop hits
`unimplemented!()` at its first set bit. -/
def ldmsGo (load32 : Nat → Nat) (list : Nat) (loadSpsr : Bool) :
    Cpu → List Nat → Nat → Nat → Except ArmError (Cpu × Nat × List Nat)
  | cpu, [], _, pc => .ok (cpu, pc, [])
  | cpu, i :: rest, addr, pc =>
    if (list >>> i) &&& 1 ≠ 0 then
      let val := load32 addr
      if loadSpsr then
        if i = 15 then
          let pc2 := load32 addr
          match ldmsGo load32 list loadSpsr cpu rest (wrappingAdd addr 4) pc2 with
          | .error e => .error e
          | .ok r => .ok (r.1, r.2.1, addr :: addr :: r.2.2)
        else
          match ldmsGo load32 list loadSpsr (cpu.setReg i val) rest
              (wrappingAdd addr 4) pc with
          | .error e => .error e
          | .ok r => .ok (r.1, r.2.1, addr :: r.2.2)
      else .error .notImplemented
    else ldmsGo load32 list loadSpsr cpu rest addr pc

/-- `ldms` (lines 1603-1677), the LDM(2)/LDM(3) entry: the same guard as
`ldm`; PC in the list selects LDM(3), which after the loop and writeback
sets the PC and restores the CPSR from the SPSR. -/
def ldms (u p w : Bool) (load32 : Nat → Nat) (rn list : Nat) (cpu : Cpu) :
    Except ArmError (Cpu × List Nat) :=
  if list = 0 ∨ rn = 15 ∨ (w = true ∧ list &&& (1 <<< rn) ≠ 0) then
    .error .unpredictable
  else
    let loadSpsr := decide (list &&& (1 <<< 15) ≠ 0)
    let base := cpu.reg rn
    let sw := mode4_start_wb u p base list
    match ldmsGo load32 list loadSpsr cpu (List.range 16) sw.1 0 with
    | .error e => .error e
    | .ok r =>
      let cpu2 := if w then r.1.setReg rn sw.2 else r.1
      .ok (if loadSpsr then cpu2.setPcCpsr r.2.1 cpu2.spsr else cpu2, r.2.2)

/-- The loop's bit test `(list >> i) & 1 != 0` is `testBit`. -/
theorem shift_and_one_iff (list i : Nat) :
    ((list >>> i) &&& 1 ≠ 0) ↔ list.testBit i := by
  rw [Nat.testBit_to_div_mod, decide_eq_true_eq, Nat.and_one_is_mod,
      Nat.shiftRight_eq_div_pow]
  omega

/-- The guard's test `(list & (1 << i)) != 0` is `testBit`. -/
theorem and_shift_one_iff (list i : Nat) :
    (list &&& (1 <<< i) ≠ 0) ↔ list.testBit i := by
  rw [Nat.shiftLeft_eq, one_mul, Nat.and_two_pow]
  cases h : list.testBit i <;> simp [h]

/-- Composing the loop's address increment: advancing by 4 then by `4k`
is advancing by `4(k+1)`. -/
theorem wrappingAdd_step (addr k : Nat) :
    wrappingAdd (wrappingAdd addr 4) (4 * k) = wrappingAdd addr (4 * (k + 1)) := by
  unfold wrappingAdd
  rw [Nat.mod_add_mod]
  congr 1
  ring

/-- A wrapped address below `2 ^ 32` advanced by zero is itself. -/
theorem wrappingAdd_zero (addr : Nat) (h : addr < 2 ^ 32) :
    wrappingAdd addr (4 * 0) = addr := by
  unfold wrappingAdd
  rw [Nat.mul_zero, Nat.add_zero, Nat.mod_eq_of_lt h]

/-- The `ldm` loop reads ascending addresses: one word per set bit, at
`start`, `start + 4`, `start + 8`, … in the order of increasing register
index. -/
theorem ldmGo_trace (load32 : Nat → Nat) (list : Nat) :
    ∀ (l : List Nat) (cpu : Cpu) (addr : Nat), addr < 2 ^ 32 →
      (ldmGo load32 list cpu l addr).2 =
        (List.range ((l.filter (fun i => list.testBit i)).length)).map
          (fun k => wrappingAdd addr (4 * k)) := by
  intro l
  induction l with
  | nil => intro cpu addr h; rfl
  | cons i rest ih =>
    intro cpu addr h
    by_cases hb : list.testBit i
    · simp only [ldmGo]
      rw [if_pos ((shift_and_one_iff list i).mpr hb), List.filter_cons_of_pos hb]
      simp only [List.length_cons, List.range_succ_eq_map, List.map_cons,
        List.map_map]
      rw [wrappingAdd_zero addr h,
          ih (cpu.setRegPcMask i (load32 addr)) (wrappingAdd addr 4)
            (Nat.mod_lt _ (by norm_num))]
      congr 1
      apply List.map_congr_left
      intro k _
      simp only [Function.comp]
      exact wrappingAdd_step addr k
    · simp only [ldmGo]
      rw [if_neg (fun hc => hb ((shift_and_one_iff list i).mp hc)),
          List.filter_cons_of_neg (by simpa using hb)]
      exact ih cpu addr h

/-- The `stm` loop, under the precondition established by the guard (no
set bit equals the base register while writeback is on), succeeds and
stores the listed registers in ascending index order at ascending
addresses. -/
theorem stmGo_trace (cpu : Cpu) (list rn : Nat) (w : Bool) :
    ∀ (l : List Nat) (addr : Nat) (first : Bool), addr < 2 ^ 32 →
      (∀ i ∈ l, list.testBit i → ¬(w = true ∧ i = rn)) →
      stmGo cpu list rn w l addr first =
        .ok (((List.range ((l.filter (fun i => list.testBit i)).length)).map
                (fun k => wrappingAdd addr (4 * k))).zip
              ((l.filter (fun i => list.testBit i)).map cpu.reg)) := by
  intro l
  induction l with
  | nil => intro addr first h hg; rfl
  | cons i rest ih =>
    intro addr first h hg
    by_cases hb : list.testBit i
    · simp only [stmGo]
      rw [if_pos ((shift_and_one_iff list i).mpr hb),
          if_neg (fun hc => hg i (List.mem_cons_self i rest) hb ⟨hc.1, hc.2.1⟩),
          ih (wrappingAdd addr 4) false (Nat.mod_lt _ (by norm_num))
            (fun j hj hbj => hg j (List.mem_cons_of_mem i hj) hbj)]
      rw [List.filter_cons_of_pos hb]
      simp only [List.length_cons, List.range_succ_eq_map, List.map_cons,
        List.map_map, List.zip_cons_cons]
      rw [wrappingAdd_zero addr h]
      congr 2
      have hmap : List.map (fun k => wrappingAdd (wrappingAdd addr 4) (4 * k))
            (List.range ((rest.filter (fun i => list.testBit i)).length)) =
          List.map ((fun k => wrappingAdd addr (4 * k)) ∘ Nat.succ)
            (List.range ((rest.filter (fun i => list.testBit i)).length)) := by
        apply List.map_congr_left
        intro k _
        simp only [Function.comp]
        exact wrappingAdd_step addr k
      rw [hmap]
    · simp only [stmGo]
      rw [if_neg (fun hc => hb ((shift_and_one_iff list i).mp hc)),
          List.filter_cons_of_neg (by simpa using hb)]
      exact ih addr first h (fun j hj hbj => hg j (List.mem_cons_of_mem i hj) hbj)

/-- The `ldms` loop in its LDM(3) configuration issues one bus read per
set bit plus one extra read for each occurrence of register 15. -/
theorem ldmsGo_len (load32 : Nat → Nat) (list : Nat) :
    ∀ (l : List Nat) (cpu : Cpu) (addr pc : Nat) (r : Cpu × Nat × List Nat),
      ldmsGo load32 list true cpu l addr pc = .ok r →
      r.2.2.length = (l.filter (fun i => list.testBit i)).length +
        (l.filter (fun i => list.testBit i)).count 15 := by
  intro l
  induction l with
  | nil =>
    intro cpu addr pc r hr
    simp only [ldmsGo] at hr
    cases hr
    rfl
  | cons i rest ih =>
    intro cpu addr pc r hr
    by_cases hb : list.testBit i
    · simp only [ldmsGo] at hr
      rw [if_pos ((shift_and_one_iff list i).mpr hb)] at hr
      rw [if_pos trivial] at hr
      by_cases h15 : i = 15
      · subst h15
        rw [if_pos rfl] at hr
        cases hrec : ldmsGo load32 list true cpu rest (wrappingAdd addr 4)
            (load32 addr) with
        | error e => rw [hrec] at hr; cases hr
        | ok r2 =>
          rw [hrec] at hr
          cases hr
          have hih := ih cpu (wrappingAdd addr 4) (load32 addr) r2 hrec
          rw [show List.filter (fun i => list.testBit i) rest =
                List.filter list.testBit rest from rfl] at hih
          rw [List.filter_cons_of_pos hb, List.count_cons_self,
              List.length_cons, List.length_cons, List.length_cons]
          omega
      · rw [if_neg h15] at hr
        cases hrec : ldmsGo load32 list true (cpu.setReg i (load32 addr)) rest
            (wrappingAdd addr 4) pc with
        | error e => rw [hrec] at hr; cases hr
        | ok r2 =>
          rw [hrec] at hr
          cases hr
          have hih := ih (cpu.setReg i (load32 addr)) (wrappingAdd addr 4) pc r2 hrec
          rw [show List.filter (fun i => list.testBit i) rest =
                List.filter list.testBit rest from rfl] at hih
          rw [List.filter_cons_of_pos hb, List.count_cons_of_ne (fun hc => h15 hc.symm),
              List.length_cons, List.length_cons]
          omega
    · simp only [ldmsGo] at hr
      rw [if_neg (fun hc => hb ((shift_and_one_iff list i).mp hc))] at hr
      rw [List.filter_cons_of_neg (by simpa using hb)]
      exact ih cpu addr pc r hr

/-- The start address produced by `mode4_start_wb` is a 32-bit value
whenever the base is. -/
theorem mode4_start_lt (u p : Bool) (base list : Nat) (h : base < 2 ^ 32) :
    (mode4_start_wb u p base list).1 < 2 ^ 32 := by
  unfold mode4_start_wb
  cases u <;> cases p <;>
    simp [wrappingAdd, wrappingSub] <;>
    first
      | exact h
      | exact Nat.mod_lt _ (by norm_num)

/-- C5: every LDM or STM (including the S-suffixed `ldms` entry) whose
register list is empty, or whose base register is the PC, or which has
writeback enabled with the base register in the list, fails with an
`unpredictable` error — the guard runs before the transfer loop, so the
error result carries no bus accesses — and every STM whose register list
includes the PC fails as well. -/
theorem ldm_stm_reject (u p w : Bool) (load32 : Nat → Nat) (rn list : Nat) (cpu : Cpu) :
    ((list = 0 ∨ rn = 15 ∨ (w = true ∧ list.testBit rn = true)) →
      ldm u p w load32 rn list cpu = .error .unpredictable ∧
      ldms u p w load32 rn list cpu = .error .unpredictable ∧
      stm u p w rn list cpu = .error .unpredictable) ∧
    (list.testBit 15 = true → ∃ e, stm u p w rn list cpu = .error e) := by
  have hg : (list = 0 ∨ rn = 15 ∨ (w = true ∧ list.testBit rn = true)) →
      (list = 0 ∨ rn = 15 ∨ (w = true ∧ list &&& (1 <<< rn) ≠ 0)) := by
    rintro (h | h | ⟨hw, hb⟩)
    · exact Or.inl h
    · exact Or.inr (Or.inl h)
    · exact Or.inr (Or.inr ⟨hw, (and_shift_one_iff list rn).mpr hb⟩)
  constructor
  · intro h
    have h2 := hg h
    refine ⟨?_, ?_, ?_⟩
    · unfold ldm
      rw [if_pos h2]
    · unfold ldms
      rw [if_pos h2]
    · unfold stm
      rw [if_pos h2]
  · intro h15
    by_cases hgd : list = 0 ∨ rn = 15 ∨ (w = true ∧ list &&& (1 <<< rn) ≠ 0)
    · refine ⟨.unpredictable, ?_⟩
      unfold stm
      rw [if_pos hgd]
    · refine ⟨.implDefined, ?_⟩
      unfold stm
      rw [if_neg hgd, if_pos ((and_shift_one_iff list 15).mpr h15)]

/-- Witness for `ldm_stm_reject`: an empty register list is rejected, and
an STM whose list contains the PC (`0x8002`) fails. -/
theorem ldm_stm_reject_witness :
    ldm true true false (fun _ => 0) 0 0 cpu0 = .error .unpredictable ∧
    ∃ e, stm true true false 1 0x8002 cpu0 = .error e := by
  have h1 := (ldm_stm_reject true true false (fun _ => 0) 0 0 cpu0).1 (Or.inl rfl)
  have h2 := (ldm_stm_reject true true false (fun _ => 0) 1 0x8002 cpu0).2 (by decide)
  exact ⟨h1.1, h2⟩

/-- C3: the LDM/STM start address and writeback value follow the claimed
table — up: start `base + 4` (pre) or `base` (post), writeback
`base + L`; down: start `base − L` (pre) or `base − L + 4` (post),
writeback `base − L`, with `L = 4 · popcount(list)` — and the transfers
proceed in ascending address order (`start`, `start + 4`, …), iterating
register indices 0 through 15 in increasing order, regardless of
direction. -/
theorem block_transfer_order (u p w : Bool) (load32 : Nat → Nat)
    (rn list base : Nat) (cpu : Cpu) (hreg : cpu.reg rn < 2 ^ 32) :
    (mode4_start_wb true true base list =
      (wrappingAdd base 4, wrappingAdd base (4 * countOnes list))) ∧
    (mode4_start_wb true false base list =
      (base, wrappingAdd base (4 * countOnes list))) ∧
    (mode4_start_wb false true base list =
      (wrappingSub base (4 * countOnes list),
       wrappingSub base (4 * countOnes list))) ∧
    (mode4_start_wb false false base list =
      (wrappingAdd (wrappingSub base (4 * countOnes list)) 4,
       wrappingSub base (4 * countOnes list))) ∧
    (∀ c tr, ldm u p w load32 rn list cpu = .ok (c, tr) →
      tr = (List.range (countOnes list)).map
        (fun k => wrappingAdd (mode4_start_wb u p (cpu.reg rn) list).1 (4 * k))) ∧
    (∀ c tr, stm u p w rn list cpu = .ok (c, tr) →
      tr = ((List.range (countOnes list)).map
              (fun k => wrappingAdd (mode4_start_wb u p (cpu.reg rn) list).1 (4 * k))).zip
            (((List.range 16).filter (fun i => list.testBit i)).map cpu.reg)) := by
  have hstart := mode4_start_lt u p (cpu.reg rn) list hreg
  refine ⟨?_, ?_, ?_, ?_, ?_, ?_⟩
  · simp [mode4_start_wb, Nat.mul_comm]
  · simp [mode4_start_wb, Nat.mul_comm]
  · simp [mode4_start_wb, Nat.mul_comm]
  · simp [mode4_start_wb, Nat.mul_comm]
  · intro c tr h
    simp only [ldm] at h
    by_cases hgd : list = 0 ∨ rn = 15 ∨ (w = true ∧ list &&& (1 <<< rn) ≠ 0)
    · rw [if_pos hgd] at h
      cases h
    · rw [if_neg hgd] at h
      injection Except.ok.inj h with h1 h2
      subst h2
      rw [ldmGo_trace load32 list (List.range 16) cpu
            (mode4_start_wb u p (cpu.reg rn) list).1 hstart]
      rfl
  · intro c tr h
    simp only [stm] at h
    by_cases hgd : list = 0 ∨ rn = 15 ∨ (w = true ∧ list &&& (1 <<< rn) ≠ 0)
    · rw [if_pos hgd] at h
      cases h
    · rw [if_neg hgd] at h
      by_cases hpc : list &&& (1 <<< 15) ≠ 0
      · rw [if_pos hpc] at h
        cases h
      · rw [if_neg hpc] at h
        have hguard : ∀ i ∈ List.range 16, list.testBit i = true →
            ¬(w = true ∧ i = rn) := by
          rintro i hi hbi ⟨hw, hirn⟩
          subst hirn
          exact hgd (Or.inr (Or.inr ⟨hw, (and_shift_one_iff list i).mpr hbi⟩))
        rw [stmGo_trace cpu list rn w (List.range 16)
              (mode4_start_wb u p (cpu.reg rn) list).1 true hstart hguard] at h
        injection Except.ok.inj h with h1 h2
        subst h2
        rfl

/-- Witness for `block_transfer_order`: `ldm` of register list `{R1}`
(word `0b10`) from base `R0 = 0` on `cpu0` reads exactly the start
address. -/
theorem block_transfer_order_witness :
    (okValue (ldm true false false (fun _ => 0) 0 2 cpu0)).map Prod.snd =
      some ((List.range (countOnes 2)).map
        (fun k => wrappingAdd (mode4_start_wb true false (cpu0.reg 0) 2).1 (4 * k))) := by
  have h := (block_transfer_order true false false (fun _ => 0) 0 2 0 cpu0
    (by decide)).2.2.2.2.1
  have hE : ldm true false false (fun _ => 0) 0 2 cpu0 =
      .ok ((ldmGo (fun _ => 0) 2 cpu0 (List.range 16) 0).1,
           (ldmGo (fun _ => 0) 2 cpu0 (List.range 16) 0).2) := rfl
  have htr := h _ _ hE
  rw [hE]
  exact congrArg some htr

/-- C8 (counterexample): LDM(3) with register list `{PC}` (`0x8000`,
popcount 1) issues two word reads — the PC slot is loaded once into the
discarded `val` and again into the deferred `pc`. -/
theorem ldm3_extra_access :
    (okValue (ldms true false false (fun _ => 0) 0 0x8000 cpu0)).map
      (fun r => r.2.length) = some 2 ∧
    countOnes 0x8000 = 1 := by
  exact ⟨rfl, rfl⟩

/-- C8 (amended): for LDM and STM with a non-empty register list the
number of 32-bit bus accesses equals `popcount(list)`, except that the
S-suffixed LDM(3) variant (PC in the list) issues `popcount(list) + 1`
accesses because the PC word is read twice; with an empty list all three
fail instead. -/
theorem bus_access_count (u p w : Bool) (load32 : Nat → Nat)
    (rn list : Nat) (cpu : Cpu) (hreg : cpu.reg rn < 2 ^ 32) :
    (∀ c tr, ldm u p w load32 rn list cpu = .ok (c, tr) →
      tr.length = countOnes list) ∧
    (∀ c tr, stm u p w rn list cpu = .ok (c, tr) →
      tr.length = countOnes list) ∧
    (∀ c tr, ldms u p w load32 rn list cpu = .ok (c, tr) →
      list.testBit 15 = true → tr.length = countOnes list + 1) ∧
    (list = 0 →
      ldm u p w load32 rn list cpu = .error .unpredictable ∧
      ldms u p w load32 rn list cpu = .error .unpredictable ∧
      stm u p w rn list cpu = .error .unpredictable) := by
  have hstart := mode4_start_lt u p (cpu.reg rn) list hreg
  refine ⟨?_, ?_, ?_, ?_⟩
  · intro c tr h
    simp only [ldm] at h
    by_cases hgd : list = 0 ∨ rn = 15 ∨ (w = true ∧ list &&& (1 <<< rn) ≠ 0)
    · rw [if_pos hgd] at h
      cases h
    · rw [if_neg hgd] at h
      injection Except.ok.inj h with h1 h2
      subst h2
      rw [ldmGo_trace load32 list (List.range 16) cpu
            (mode4_start_wb u p (cpu.reg rn) list).1 hstart]
      rw [List.length_map, List.length_range]
      rfl
  · intro c tr h
    simp only [stm] at h
    by_cases hgd : list = 0 ∨ rn = 15 ∨ (w = true ∧ list &&& (1 <<< rn) ≠ 0)
    · rw [if_pos hgd] at h
      cases h
    · rw [if_neg hgd] at h
      by_cases hpc : list &&& (1 <<< 15) ≠ 0
      · rw [if_pos hpc] at h
        cases h
      · rw [if_neg hpc] at h
        have hguard : ∀ i ∈ List.range 16, list.testBit i = true →
            ¬(w = true ∧ i = rn) := by
          rintro i hi hbi ⟨hw, hirn⟩
          subst hirn
          exact hgd (Or.inr (Or.inr ⟨hw, (and_shift_one_iff list i).mpr hbi⟩))
        rw [stmGo_trace cpu list rn w (List.range 16)
              (mode4_start_wb u p (cpu.reg rn) list).1 true hstart hguard] at h
        injection Except.ok.inj h with h1 h2
        subst h2
        rw [List.length_zip, List.length_map, List.length_range,
            List.length_map]
        have hco : countOnes list =
            ((List.range 16).filter (fun i => list.testBit i)).length := rfl
        omega
  · intro c tr h h15
    simp only [ldms] at h
    by_cases hgd : list = 0 ∨ rn = 15 ∨ (w = true ∧ list &&& (1 <<< rn) ≠ 0)
    · rw [if_pos hgd] at h
      cases h
    · rw [if_neg hgd] at h
      rw [decide_eq_true ((and_shift_one_iff list 15).mpr h15)] at h
      cases hrec : ldmsGo load32 list true cpu (List.range 16)
          (mode4_start_wb u p (cpu.reg rn) list).1 0 with
      | error e =>
        rw [hrec] at h
        cases h
      | ok r =>
        rw [hrec] at h
        injection Except.ok.inj h with h1 h2
        subst h2
        have hlen := ldmsGo_len load32 list (List.range 16) cpu
          (mode4_start_wb u p (cpu.reg rn) list).1 0 r hrec
        have hmem : 15 ∈ (List.range 16).filter (fun i => list.testBit i) :=
          List.mem_filter.mpr ⟨List.mem_range.mpr (by norm_num), h15⟩
        have hnd : ((List.range 16).filter (fun i => list.testBit i)).Nodup :=
          (List.nodup_range 16).filter _
        have hcount := List.count_eq_one_of_mem hnd hmem
        have hco : countOnes list =
            ((List.range 16).filter (fun i => list.testBit i)).length := rfl
        omega
  · intro h0
    have h2 : list = 0 ∨ rn = 15 ∨ (w = true ∧ list &&& (1 <<< rn) ≠ 0) := Or.inl h0
    refine ⟨?_, ?_, ?_⟩
    · unfold ldm
      rw [if_pos h2]
    · unfold ldms
      rw [if_pos h2]
    · unfold stm
      rw [if_pos h2]

/-- Witness for `bus_access_count`: STM of `{R1, R2}` (`0b110`) issues
two stores. -/
theorem bus_access_count_witness :
    ∃ c tr, stm true false false 0 6 cpu0 = .ok (c, tr) ∧
      tr.length = countOnes 6 := by
  have h := (bus_access_count true false false (fun _ => 0) 0 6 cpu0 (by decide)).2.1
  exact ⟨_, _, rfl, h _ _ rfl⟩

end Pksx
